import Mathlib

/-!
Shallow embedding of the two algorithmic cores of the Bangumi data
integration pipeline, with proofs of the specified properties.

* The set-based incremental reconciler `implement_incremental_load`
  from `data_loading_to_mysql_database.py` (lines 185-277).
* The fault-tolerant paged collection fetcher `fetch_single_category`
  and the category total resolver `fetch_category_total` from
  `bangumi_data_ingestion.py` (lines 105-258), together with the
  zero-total guard of `collect_all_data` (lines 375-384).

Dataframes are modelled as lists of rows, Python sets of ids as lists
used only through membership, the HTTP transport as an oracle mapping
the index of a request to the response the session returns for it, and
blocking sleeps as a recorded log of durations in tenths of a second.
-/

/-! ## Incremental reconciler

`implement_incremental_load` (data_loading_to_mysql_database.py,
lines 185-277).  A row carries its `subject_id` column (`none` models a
pandas NA) together with the rest of its columns, abstracted as a value
of an arbitrary type `δ`. -/

structure Row (κ δ : Type) where
  subject_id : Option κ
  data : δ
deriving DecidableEq

variable {κ δ : Type} [DecidableEq κ]

/-- `df[df[id_column].notna()]` (lines 223 and 226 of the source). -/
def keyedRows (df : List (Row κ δ)) : List (Row κ δ) :=
  df.filter (fun r => r.subject_id.isSome)

/-- `df[df[id_column].isna()]` (lines 224 and 227 of the source). -/
def keylessRows (df : List (Row κ δ)) : List (Row κ δ) :=
  df.filter (fun r => r.subject_id.isNone)

/-- The id column of a dataframe; `set(df_with_id[id_column])`
(lines 236-237) is this list used only through membership. -/
def idsOf (df : List (Row κ δ)) : List κ :=
  df.filterMap (fun r => r.subject_id)

/-- pandas `Series.isin(s)` applied to the id column of one row:
a NA id is never a member. -/
def isinOpt (o : Option κ) (s : List κ) : Bool :=
  match o with
  | some k => decide (k ∈ s)
  | none => false

/-- `insert_ids = source_id_set - target_id_set` (line 240). -/
def insertIds (source target : List (Row κ δ)) : List κ :=
  (idsOf (keyedRows source)).filter (fun k => decide (k ∉ idsOf (keyedRows target)))

/-- `delete_ids = target_id_set - source_id_set` (line 243). -/
def deleteIds (source target : List (Row κ δ)) : List κ :=
  (idsOf (keyedRows target)).filter (fun k => decide (k ∉ idsOf (keyedRows source)))

/-- `common_ids = source_id_set & target_id_set` (line 246). -/
def commonIds (source target : List (Row κ δ)) : List κ :=
  (idsOf (keyedRows source)).filter (fun k => decide (k ∈ idsOf (keyedRows target)))

/-- `implement_incremental_load` (lines 213-265): the initial-load fast
path when the target is empty, otherwise the in-memory diff — the kept
target rows (not deleted, not updated), then the inserted source rows,
then the updated source rows, then the keyless source rows, concatenated
exactly as `pd.concat([df_combined, df_new, df_updated, df_source_na_id])`
on line 265. -/
def implement_incremental_load (source target : List (Row κ δ)) : List (Row κ δ) :=
  if target.isEmpty then source
  else
    ((keyedRows target).filter
        (fun r => !(isinOpt r.subject_id (deleteIds source target)))).filter
        (fun r => !(isinOpt r.subject_id (commonIds source target)))
      ++ (keyedRows source).filter (fun r => isinOpt r.subject_id (insertIds source target))
      ++ (keyedRows source).filter (fun r => isinOpt r.subject_id (commonIds source target))
      ++ keylessRows source

theorem mem_keyedRows {df : List (Row κ δ)} {r : Row κ δ} :
    r ∈ keyedRows df ↔ r ∈ df ∧ r.subject_id.isSome = true := by
  simp [keyedRows, List.mem_filter]

theorem mem_idsOf_keyedRows {df : List (Row κ δ)} {k : κ} :
    k ∈ idsOf (keyedRows df) ↔ ∃ r ∈ df, r.subject_id = some k := by
  constructor
  · rintro h
    simp only [idsOf, List.mem_filterMap] at h
    obtain ⟨r, hr, hid⟩ := h
    exact ⟨r, (mem_keyedRows.mp hr).1, hid⟩
  · rintro ⟨r, hr, hid⟩
    simp only [idsOf, List.mem_filterMap]
    exact ⟨r, mem_keyedRows.mpr ⟨hr, by simp [hid]⟩, hid⟩

theorem mem_insertIds {s t : List (Row κ δ)} {k : κ} :
    k ∈ insertIds s t ↔ k ∈ idsOf (keyedRows s) ∧ k ∉ idsOf (keyedRows t) := by
  simp [insertIds, List.mem_filter]

theorem mem_deleteIds {s t : List (Row κ δ)} {k : κ} :
    k ∈ deleteIds s t ↔ k ∈ idsOf (keyedRows t) ∧ k ∉ idsOf (keyedRows s) := by
  simp [deleteIds, List.mem_filter]

theorem mem_commonIds {s t : List (Row κ δ)} {k : κ} :
    k ∈ commonIds s t ↔ k ∈ idsOf (keyedRows s) ∧ k ∈ idsOf (keyedRows t) := by
  simp [commonIds, List.mem_filter]

/-- The kept-target-rows dataframe of the diff is always empty: every
keyed target row has its id in `delete_ids` or in `common_ids`. -/
theorem combined_target_rows_nil (s t : List (Row κ δ)) :
    ((keyedRows t).filter
        (fun r => !(isinOpt r.subject_id (deleteIds s t)))).filter
        (fun r => !(isinOpt r.subject_id (commonIds s t))) = [] := by
  rw [List.filter_filter]
  apply List.filter_eq_nil_iff.mpr
  intro r hr
  obtain ⟨hrt, hsome⟩ := mem_keyedRows.mp hr
  obtain ⟨k, hk⟩ := Option.isSome_iff_exists.mp hsome
  have hkt : k ∈ idsOf (keyedRows t) := mem_idsOf_keyedRows.mpr ⟨r, hrt, hk⟩
  by_cases hks : k ∈ idsOf (keyedRows s)
  · have hcom : k ∈ commonIds s t := mem_commonIds.mpr ⟨hks, hkt⟩
    simp [isinOpt, hk, hcom]
  · have hdel : k ∈ deleteIds s t := mem_deleteIds.mpr ⟨hkt, hks⟩
    simp [isinOpt, hk, hdel]

/-- On keyed source rows, membership of the id in `common_ids` is the
negation of membership in `insert_ids`. -/
theorem updated_filter_eq (s t : List (Row κ δ)) :
    (keyedRows s).filter (fun r => isinOpt r.subject_id (commonIds s t))
      = (keyedRows s).filter (fun r => !(isinOpt r.subject_id (insertIds s t))) := by
  apply List.filter_congr
  intro r hr
  obtain ⟨hrs, hsome⟩ := mem_keyedRows.mp hr
  obtain ⟨k, hk⟩ := Option.isSome_iff_exists.mp hsome
  have hks : k ∈ idsOf (keyedRows s) := mem_idsOf_keyedRows.mpr ⟨r, hrs, hk⟩
  by_cases hkt : k ∈ idsOf (keyedRows t)
  · have hcom : k ∈ commonIds s t := mem_commonIds.mpr ⟨hks, hkt⟩
    have hins : k ∉ insertIds s t := fun h => (mem_insertIds.mp h).2 hkt
    simp [isinOpt, hk, hcom, hins]
  · have hcom : k ∉ commonIds s t := fun h => hkt (mem_commonIds.mp h).2
    have hins : k ∈ insertIds s t := mem_insertIds.mpr ⟨hks, hkt⟩
    simp [isinOpt, hk, hcom, hins]

/-- Splitting a dataframe on `subject_id.notna()` and concatenating the
two parts back is a permutation of the dataframe. -/
theorem keyed_append_keyless_perm (df : List (Row κ δ)) :
    (keyedRows df ++ keylessRows df).Perm df := by
  have h : keylessRows df = df.filter (fun r => !(r.subject_id.isSome)) := by
    apply List.filter_congr
    intro r _
    cases r.subject_id <;> simp [Option.isNone]
  rw [keyedRows, h]
  exact List.filter_append_perm _ df

/-- Core property of the diff: the reconciled output is a permutation of
the source snapshot, on the empty-target fast path and on the diff path
alike. -/
theorem reconcile_perm_source (s t : List (Row κ δ)) :
    (implement_incremental_load s t).Perm s := by
  by_cases ht : t.isEmpty
  · simp [implement_incremental_load, ht]
  · rw [implement_incremental_load, if_neg ht, combined_target_rows_nil, List.nil_append,
      updated_filter_eq]
    refine List.Perm.trans ?_ (keyed_append_keyless_perm s)
    exact List.Perm.append_right (keylessRows s) (List.filter_append_perm _ (keyedRows s))

/-- C1: for every source snapshot and previous target,
`implement_incremental_load` produces an output whose rows are exactly
the rows of the source snapshot (as a multiset: all keyed source rows
plus all keyless source rows, no row of the previous target), so the
set-based diff is extensionally equivalent to a full replace of the
target by the source, on the empty-target fast path and the diff path
alike. -/
theorem c1_reconcile_equals_full_replace (s t : List (Row κ δ)) :
    (implement_incremental_load s t).Perm s :=
  reconcile_perm_source s t

/-- C2: `insert_ids`, `delete_ids` and `common_ids` are pairwise
disjoint, and their union is `keys(source_keyed) ∪ keys(target_keyed)`
(stated elementwise over the membership of an arbitrary key). -/
theorem c2_key_sets_partition (s t : List (Row κ δ)) (k : κ) :
    (¬ (k ∈ insertIds s t ∧ k ∈ deleteIds s t))
      ∧ (¬ (k ∈ insertIds s t ∧ k ∈ commonIds s t))
      ∧ (¬ (k ∈ deleteIds s t ∧ k ∈ commonIds s t))
      ∧ ((k ∈ insertIds s t ∨ k ∈ deleteIds s t ∨ k ∈ commonIds s t)
          ↔ (k ∈ idsOf (keyedRows s) ∨ k ∈ idsOf (keyedRows t))) := by
  simp only [mem_insertIds, mem_deleteIds, mem_commonIds]
  by_cases hs : k ∈ idsOf (keyedRows s) <;> by_cases ht : k ∈ idsOf (keyedRows t) <;>
    simp [hs, ht]

/-- C3 as stated fails at a concrete input: the previous target
`[⟨some 1, 0⟩]` has each non-null key at most once, yet reconciling the
source `[⟨some 1, 0⟩, ⟨some 1, 1⟩]` (which carries the key 1 twice)
against it yields an output in which the key 1 occurs twice. -/
theorem c3_counterexample :
    (idsOf (keyedRows [Row.mk (some 1) 0])).Nodup
      ∧ ¬ (idsOf (keyedRows
            (implement_incremental_load
              [Row.mk (some 1) 0, Row.mk (some 1) 1]
              [Row.mk (some 1) (0 : Nat)]))).Nodup := by
  decide

/-- C3 amended: if every non-null key occurs at most once among the
keyed rows of the source snapshot and at most once among the keyed rows
of the previous target, then every non-null key occurs at most once
among the keyed rows of the reconciled output. -/
theorem c3_amended_key_uniqueness (s t : List (Row κ δ))
    (hs : (idsOf (keyedRows s)).Nodup) (ht : (idsOf (keyedRows t)).Nodup) :
    (idsOf (keyedRows (implement_incremental_load s t))).Nodup := by
  have hperm : (implement_incremental_load s t).Perm s := reconcile_perm_source s t
  have hkeyed : (keyedRows (implement_incremental_load s t)).Perm (keyedRows s) :=
    hperm.filter _
  have hids : (idsOf (keyedRows (implement_incremental_load s t))).Perm
      (idsOf (keyedRows s)) := hkeyed.filterMap _
  exact hids.nodup_iff.mpr hs

theorem c3_amended_witness :
    (idsOf (keyedRows
      (implement_incremental_load
        [Row.mk (some 1) 5, Row.mk (some 2) 6]
        [Row.mk (some 1) (0 : Nat), Row.mk (some 3) 7]))).Nodup :=
  c3_amended_key_uniqueness
    [Row.mk (some 1) 5, Row.mk (some 2) 6]
    [Row.mk (some 1) (0 : Nat), Row.mk (some 3) 7]
    (by decide) (by decide)

/-- No keyed filtered source dataframe contributes keyless rows. -/
theorem keylessRows_filter_keyedRows (df : List (Row κ δ)) (p : Row κ δ → Bool) :
    keylessRows ((keyedRows df).filter p) = [] := by
  apply List.filter_eq_nil_iff.mpr
  intro r hr
  have := (mem_keyedRows.mp (List.mem_of_mem_filter hr)).2
  simp [Option.isNone] at this ⊢
  cases h : r.subject_id with
  | none => rw [h] at this; cases this
  | some k => simp

/-- The keyless rows of the reconciled output are exactly the keyless
rows of the source, in order: the diff keeps `df_source_na_id` and drops
`df_target_na_id`. -/
theorem reconcile_keyless_eq_source (s t : List (Row κ δ)) (ht : t ≠ []) :
    keylessRows (implement_incremental_load s t) = keylessRows s := by
  have hne : ¬ t.isEmpty := by
    cases t with
    | nil => exact absurd rfl ht
    | cons a l => simp [List.isEmpty]
  rw [implement_incremental_load, if_neg hne, combined_target_rows_nil, List.nil_append]
  rw [keylessRows, List.filter_append, List.filter_append, ← keylessRows, ← keylessRows,
    ← keylessRows]
  rw [keylessRows_filter_keyedRows, keylessRows_filter_keyedRows, List.nil_append,
    List.nil_append]
  apply List.filter_eq_self.mpr
  intro r hr
  exact (List.mem_filter.mp hr).2

/-- C4: for every source snapshot and non-empty previous target, the
keyless rows of the reconciled output are exactly the keyless rows of
the source snapshot, and a keyless row of the previous target that is
not a row of the source does not appear in the reconciled output. -/
theorem c4_keyless_rows (s t : List (Row κ δ)) (r : Row κ δ) (ht : t ≠ []) :
    keylessRows (implement_incremental_load s t) = keylessRows s
      ∧ (r ∈ t → r.subject_id = none → r ∉ s →
          r ∉ implement_incremental_load s t) := by
  refine ⟨reconcile_keyless_eq_source s t ht, fun _ _ hrs hmem => ?_⟩
  exact hrs ((reconcile_perm_source s t).mem_iff.mp hmem)

theorem c4_witness :
    keylessRows (implement_incremental_load
        [Row.mk (some 1) 0, Row.mk none 9] [Row.mk none (5 : Nat)])
      = keylessRows [Row.mk (some 1) 0, Row.mk none (9 : Nat)]
      ∧ Row.mk none (5 : Nat) ∉ implement_incremental_load
          [Row.mk (some 1) 0, Row.mk none 9] [Row.mk none (5 : Nat)] := by
  have h := c4_keyless_rows
    [Row.mk (some 1) 0, Row.mk none 9] [Row.mk none (5 : Nat)]
    (Row.mk none 5) (by decide)
  exact ⟨h.1, h.2 (by decide) (by decide) (by decide)⟩

/-- C5: reconciling a snapshot `s` against itself yields `insert_ids`
and `delete_ids` both empty, an output that is literally the keyed rows
of the source copy (every `common_ids` row overwritten from the source)
followed by the keyless rows of the source, and an output key column
identical to the key column of `s`. -/
theorem c5_idempotent (s : List (Row κ δ)) :
    insertIds s s = []
      ∧ deleteIds s s = []
      ∧ implement_incremental_load s s = keyedRows s ++ keylessRows s
      ∧ idsOf (keyedRows (implement_incremental_load s s)) = idsOf (keyedRows s) := by
  have hins : insertIds s s = [] := by
    apply List.filter_eq_nil_iff.mpr
    intro k hk
    simp [hk]
  have hdel : deleteIds s s = [] := by
    apply List.filter_eq_nil_iff.mpr
    intro k hk
    simp [hk]
  have hcommon : ∀ r ∈ keyedRows s, isinOpt r.subject_id (commonIds s s) = true := by
    intro r hr
    obtain ⟨hrs, hsome⟩ := mem_keyedRows.mp hr
    obtain ⟨k, hk⟩ := Option.isSome_iff_exists.mp hsome
    have hks : k ∈ idsOf (keyedRows s) := mem_idsOf_keyedRows.mpr ⟨r, hrs, hk⟩
    have : k ∈ commonIds s s := mem_commonIds.mpr ⟨hks, hks⟩
    simp [isinOpt, hk, this]
  have hout : implement_incremental_load s s = keyedRows s ++ keylessRows s := by
    by_cases hse : s.isEmpty
    · have : s = [] := List.isEmpty_iff.mp hse
      subst this
      simp [implement_incremental_load, keyedRows, keylessRows]
    · rw [implement_incremental_load, if_neg hse, combined_target_rows_nil, List.nil_append]
      rw [hins]
      have hnew : (keyedRows s).filter (fun r => isinOpt r.subject_id ([] : List κ)) = [] := by
        apply List.filter_eq_nil_iff.mpr
        intro r _
        cases r.subject_id <;> simp [isinOpt]
      rw [hnew, List.nil_append]
      rw [List.filter_eq_self.mpr hcommon]
  refine ⟨hins, hdel, hout, ?_⟩
  rw [hout, keyedRows, List.filter_append, ← keyedRows, ← keyedRows]
  have h1 : keyedRows (keyedRows s) = keyedRows s := by
    rw [keyedRows, keyedRows, List.filter_filter]
    apply List.filter_congr
    intro r _
    cases r.subject_id <;> simp
  have h2 : keyedRows (keylessRows s) = [] := by
    apply List.filter_eq_nil_iff.mpr
    intro r hr
    have := (List.mem_filter.mp hr).2
    cases h : r.subject_id with
    | none => simp [h]
    | some k => rw [keylessRows] at hr
                have := (List.mem_filter.mp hr).2
                rw [h] at this
                cases this
  rw [h1, h2, List.append_nil]

/-! ## Paged collection fetcher

`fetch_single_category` (bangumi_data_ingestion.py, lines 155-258):
a while-loop over offsets with an inner bounded attempt loop per page.
The HTTP transport is an oracle `q : Nat → PageResponse α` mapping the
index of a page request (in issue order) to what `session.get` yields:
a 429 status, a success payload with its `data` list, a connection or
timeout error (the two retried branches, whose handlers are identical),
or any other request error (which breaks the attempt loop).  Sleeps are
logged in tenths of a second. -/

/-- `LIMIT = 100` (line 46). -/
def LIMIT : Nat := 100

/-- `MAX_RETRIES = 3` (line 49). -/
def MAX_RETRIES : Nat := 3

/-- `max_consecutive_failures = 3` (line 163). -/
def MAX_CONSECUTIVE_FAILURES : Nat := 3

/-- `RETRY_BACKOFF = 1.0` seconds (line 50), in tenths of a second. -/
def RETRY_BACKOFF_DS : Nat := 10

/-- `time.sleep(10)` on a 429 (line 188), in tenths of a second. -/
def RATE_LIMIT_WAIT_DS : Nat := 100

/-- `time.sleep(0.5)` between pages (line 219), in tenths of a second. -/
def PAGE_DELAY_DS : Nat := 5

/-- What one `session.get` of a collections page can yield. -/
inductive PageResponse (α : Type) where
  | rateLimited
  | ok (items : List α)
  | connError
  | reqError
deriving DecidableEq

/-- The mutable state of `fetch_single_category`: `offset`, `all_items`,
`consecutive_failures`, the `CategoryStats` counters it mutates
(`fetched_items`, `pages_fetched`), the number of page requests issued
so far, and the log of sleeps in tenths of a second. -/
structure FetchState (α : Type) where
  offset : Nat
  allItems : List α
  consecutiveFailures : Nat
  fetchedItems : Nat
  pagesFetched : Nat
  requests : Nat
  sleeps : List Nat
deriving DecidableEq

/-- The state at the top of `fetch_single_category` (lines 160-162). -/
def fetchInit {α : Type} : FetchState α :=
  ⟨0, [], 0, 0, 0, 0, []⟩

/-- Outcome of the inner `for attempt in range(MAX_RETRIES)` loop:
either `success = True` was reached (with the `items` of the final
request) or the loop ended with `success = False`. -/
inductive AttemptResult (α : Type) where
  | success (items : List α) (st : FetchState α)
  | failed (st : FetchState α)
deriving DecidableEq

/-- The inner attempt loop (lines 178-243), with `b` the number of
attempts still available.  A 429 sleeps ten seconds and `continue`s —
which moves `attempt` forward, so it spends one attempt.  A connection
or timeout error sleeps `RETRY_BACKOFF * 2 ** attempt` seconds when an
attempt remains and otherwise ends the loop.  Any other request error
breaks the loop at once.  A success payload appends its items, updates
the stats counters, resets `consecutive_failures`, and either stops at
the current offset (lines 214-216, when `offset + LIMIT >= total`) or
advances the offset and sleeps half a second (lines 218-219). -/
def attemptLoop {α : Type} (total : Nat) (q : Nat → PageResponse α) :
    Nat → FetchState α → AttemptResult α
  | 0, st => .failed st
  | b + 1, st =>
    match q st.requests with
    | .rateLimited =>
        attemptLoop total q b
          { st with requests := st.requests + 1,
                    sleeps := st.sleeps ++ [RATE_LIMIT_WAIT_DS] }
    | .connError =>
        if b = 0 then .failed { st with requests := st.requests + 1 }
        else
          attemptLoop total q b
            { st with requests := st.requests + 1,
                      sleeps := st.sleeps
                        ++ [RETRY_BACKOFF_DS * 2 ^ (MAX_RETRIES - (b + 1))] }
    | .reqError => .failed { st with requests := st.requests + 1 }
    | .ok items =>
        if items.isEmpty then .success items { st with requests := st.requests + 1 }
        else if total ≤ st.offset + LIMIT then
          .success items
            { st with requests := st.requests + 1,
                      allItems := st.allItems ++ items,
                      fetchedItems := st.fetchedItems + items.length,
                      pagesFetched := st.pagesFetched + 1,
                      consecutiveFailures := 0 }
        else
          .success items
            { st with requests := st.requests + 1,
                      allItems := st.allItems ++ items,
                      fetchedItems := st.fetchedItems + items.length,
                      pagesFetched := st.pagesFetched + 1,
                      consecutiveFailures := 0,
                      offset := st.offset + LIMIT,
                      sleeps := st.sleeps ++ [PAGE_DELAY_DS] }

/-- The outer `while True` loop (lines 169-256), fuelled: `none` means
the fuel ran out before the loop terminated.  On a failed page the
consecutive-failure counter is bumped; reaching the threshold returns
the accumulated items (lines 245-249), otherwise the page is skipped by
one page-width (lines 251-253).  On success the loop stops when the
final request of the page returned no items or when
`offset + LIMIT >= total` (line 255). -/
def fetchLoop {α : Type} (total : Nat) (q : Nat → PageResponse α) :
    Nat → FetchState α → Option (List α × FetchState α)
  | 0, _ => none
  | fuel + 1, st =>
    match attemptLoop total q MAX_RETRIES st with
    | .failed st1 =>
        if MAX_CONSECUTIVE_FAILURES ≤ st1.consecutiveFailures + 1 then
          some (st1.allItems, { st1 with consecutiveFailures := st1.consecutiveFailures + 1 })
        else
          fetchLoop total q fuel
            { st1 with consecutiveFailures := st1.consecutiveFailures + 1,
                       offset := st1.offset + LIMIT }
    | .success items st1 =>
        if items.isEmpty then some (st1.allItems, st1)
        else if total ≤ st1.offset + LIMIT then some (st1.allItems, st1)
        else fetchLoop total q fuel st1

/-- `fetch_single_category` run from the initial state. -/
def fetch_single_category {α : Type} (total : Nat) (q : Nat → PageResponse α)
    (fuel : Nat) : Option (List α × FetchState α) :=
  fetchLoop total q fuel fetchInit

/-- The per-category body of `collect_all_data` (lines 375-384): a
category whose resolved total is zero is skipped before any call to
`fetch_single_category` (`if stats.total_items == 0: continue`), so it
contributes no items and issues no page request. -/
def collect_category {α : Type} (total : Nat) (q : Nat → PageResponse α)
    (fuel : Nat) : Option (List α × FetchState α) :=
  if total = 0 then some ([], fetchInit) else fetch_single_category total q fuel

/-! ## Category total resolver

`fetch_category_total` (bangumi_data_ingestion.py, lines 105-153).
The oracle maps the attempt index to what that attempt's `session.get`
yields: a success payload whose `total` field is an arbitrary JSON
integer (`payload.get("total", 0)` supplies `0` when the key is
absent), a connection or timeout error (the two retried branches are
identical), or any other error (non-2xx status raised by
`raise_for_status`, malformed JSON, ...), which returns zero at once. -/

/-- What one attempt of `fetch_category_total` can yield. -/
inductive TotalResponse where
  | ok (total : Int)
  | connError
  | otherError
deriving DecidableEq

/-- The `for attempt in range(MAX_RETRIES)` loop of
`fetch_category_total` (lines 117-153), with `b` the number of attempts
still available, returning the result together with the log of backoff
sleeps in tenths of a second.  A connection or timeout error sleeps
`RETRY_BACKOFF * 2 ** attempt` seconds and retries while an attempt
remains, and returns zero on the last attempt; any other error returns
zero immediately; falling out of the loop (line 153) returns zero. -/
def fetchTotalGo (q : Nat → TotalResponse) : Nat → List Nat → Int × List Nat
  | 0, sleeps => (0, sleeps)
  | b + 1, sleeps =>
    match q (MAX_RETRIES - (b + 1)) with
    | .ok t => (t, sleeps)
    | .connError =>
        if b = 0 then (0, sleeps)
        else fetchTotalGo q b (sleeps ++ [RETRY_BACKOFF_DS * 2 ^ (MAX_RETRIES - (b + 1))])
    | .otherError => (0, sleeps)

/-- `fetch_category_total`, returning its result and its sleep log. -/
def fetch_category_total (q : Nat → TotalResponse) : Int × List Nat :=
  fetchTotalGo q MAX_RETRIES []

/-- An attempt loop that ends with `success = False` leaves `offset`,
`consecutive_failures` and `all_items` untouched: the failing branches
only issue requests and sleep. -/
theorem attemptLoop_failed_inv {α : Type} (total : Nat) (q : Nat → PageResponse α) :
    ∀ (b : Nat) (st st1 : FetchState α), attemptLoop total q b st = .failed st1 →
      st1.offset = st.offset ∧ st1.consecutiveFailures = st.consecutiveFailures
        ∧ st1.allItems = st.allItems := by
  intro b
  induction b with
  | zero =>
      intro st st1 h
      simp only [attemptLoop] at h
      cases h
      exact ⟨rfl, rfl, rfl⟩
  | succ b ih =>
      intro st st1 h
      simp only [attemptLoop] at h
      cases hq : q st.requests <;> simp only [hq] at h
      case rateLimited =>
          simpa using ih _ _ h
      case connError =>
          by_cases hb : b = 0
          · rw [if_pos hb] at h
            cases h
            exact ⟨rfl, rfl, rfl⟩
          · rw [if_neg hb] at h
            simpa using ih _ _ h
      case reqError =>
          cases h
          exact ⟨rfl, rfl, rfl⟩
      case ok items =>
          split at h
          · exact absurd h (by simp)
          · split at h <;> exact absurd h (by simp)

/-- C6 as stated fails at a concrete input: when every response is an
HTTP 429, the three attempts of one page are all spent by 429 retries
(the `continue` on line 189 advances `attempt`), the page counts as a
failure, and after three such pages the fetch aborts with a
consecutive-failure count of 3 — so a 429 retry does consume the
per-page retry budget and does feed the consecutive-failure counter. -/
theorem c6_counterexample :
    attemptLoop 300 (fun _ => PageResponse.rateLimited) MAX_RETRIES
        (fetchInit (α := Nat))
      = AttemptResult.failed ⟨0, [], 0, 0, 0, 3, [100, 100, 100]⟩
    ∧ (fetch_single_category 300
          (fun _ => PageResponse.rateLimited : Nat → PageResponse Nat) 5).map
        (fun r => (r.1, r.2.consecutiveFailures)) = some ([], 3) := by
  decide

/-- C6 amended: on an HTTP 429 the fetcher sleeps the fixed ten-second
cooldown and reissues the request at the same offset (the state is
unchanged apart from the request count and the logged sleep), but the
retry consumes one attempt of the bounded per-page retry budget. -/
theorem c6_amended_rate_limit (total b : Nat) {α : Type} (q : Nat → PageResponse α)
    (st : FetchState α) (h : q st.requests = PageResponse.rateLimited) :
    attemptLoop total q (b + 1) st
      = attemptLoop total q b
          { st with requests := st.requests + 1,
                    sleeps := st.sleeps ++ [RATE_LIMIT_WAIT_DS] } := by
  conv_lhs => rw [attemptLoop]
  rw [h]

theorem c6_amended_witness :
    attemptLoop 0 (fun _ => PageResponse.rateLimited : Nat → PageResponse Nat) 1 fetchInit
      = attemptLoop 0 (fun _ => PageResponse.rateLimited : Nat → PageResponse Nat) 0
          { fetchInit with requests := (fetchInit (α := Nat)).requests + 1,
                           sleeps := (fetchInit (α := Nat)).sleeps ++ [RATE_LIMIT_WAIT_DS] } :=
  c6_amended_rate_limit 0 0 _ fetchInit rfl

/-- C7: when all retry attempts for one page end in failure, the
consecutive-failure counter is incremented; below the threshold the
offset advances by one page-width and the loop goes on (the page is
skipped, not retried further), and at the threshold
`MAX_CONSECUTIVE_FAILURES = 3` the category fetch stops and returns
exactly the items accumulated so far. -/
theorem c7_page_failure_skips_then_aborts {α : Type} (total fuel : Nat)
    (q : Nat → PageResponse α) (st st1 : FetchState α)
    (h : attemptLoop total q MAX_RETRIES st = .failed st1) :
    st1.allItems = st.allItems
    ∧ st1.offset = st.offset
    ∧ st1.consecutiveFailures = st.consecutiveFailures
    ∧ (st.consecutiveFailures + 1 < MAX_CONSECUTIVE_FAILURES →
        fetchLoop total q (fuel + 1) st
          = fetchLoop total q fuel
              { st1 with consecutiveFailures := st.consecutiveFailures + 1,
                         offset := st.offset + LIMIT })
    ∧ (MAX_CONSECUTIVE_FAILURES ≤ st.consecutiveFailures + 1 →
        fetchLoop total q (fuel + 1) st
          = some (st.allItems,
              { st1 with consecutiveFailures := st.consecutiveFailures + 1 })) := by
  obtain ⟨ho, hc, ha⟩ := attemptLoop_failed_inv total q MAX_RETRIES st st1 h
  refine ⟨ha, ho, hc, ?_, ?_⟩
  · intro hlt
    simp only [fetchLoop, h]
    rw [hc, ho, if_neg (Nat.not_le.mpr hlt)]
  · intro hge
    simp only [fetchLoop, h]
    rw [hc, if_pos hge, ha]

theorem c7_witness :
    fetchLoop 0 (fun _ => PageResponse.reqError : Nat → PageResponse Nat) (0 + 1) fetchInit
      = fetchLoop 0 (fun _ => PageResponse.reqError : Nat → PageResponse Nat) 0
          { (⟨0, [], 0, 0, 0, 1, []⟩ : FetchState Nat) with
              consecutiveFailures := (fetchInit (α := Nat)).consecutiveFailures + 1,
              offset := (fetchInit (α := Nat)).offset + LIMIT } :=
  (c7_page_failure_skips_then_aborts 0 0 _ fetchInit ⟨0, [], 0, 0, 0, 1, []⟩
      (by decide)).2.2.2.1 (by decide)

/-- C9: a category whose resolved expected total is zero is skipped by
`collect_all_data` before any page request: the category fetch yields
the empty sequence and a state whose request counter is zero. -/
theorem c9_zero_total_no_request {α : Type} (total fuel : Nat)
    (q : Nat → PageResponse α) (h : total = 0) :
    collect_category total q fuel = some ([], fetchInit)
      ∧ (fetchInit (α := α)).requests = 0 := by
  subst h
  exact ⟨by simp [collect_category], rfl⟩

theorem c9_witness :
    collect_category 0 (fun _ => PageResponse.connError : Nat → PageResponse Nat) 0
        = some ([], fetchInit)
      ∧ (fetchInit (α := Nat)).requests = 0 :=
  c9_zero_total_no_request 0 0 _ rfl

/-- C10 as stated fails at a concrete input: on a success response whose
JSON `total` field is `-1`, `fetch_category_total` returns
`payload.get("total", 0) = -1` unvalidated — a negative result. -/
theorem c10_counterexample :
    fetch_category_total (fun _ => TotalResponse.ok (-1)) = (-1, [])
      ∧ (fetch_category_total (fun _ => TotalResponse.ok (-1))).1 < 0 := by
  decide

/-- C10 amended: the category total resolver retries connection and
timeout failures up to `MAX_RETRIES = 3` attempts with exponential
backoff of base delay times `2 ^ attempt` between attempts and returns
zero after exhausting them; on any non-retryable error it returns zero
immediately with no retry; and on a success response it returns the
reported `total` field unchanged (so the result is non-negative
whenever the server reports a non-negative total), never raising. -/
theorem c10_amended_resolver (q1 q2 q3 : Nat → TotalResponse) (t : Int)
    (h1 : ∀ i, i < MAX_RETRIES → q1 i = TotalResponse.connError)
    (h2 : q2 0 = TotalResponse.ok t) (h3 : q3 0 = TotalResponse.otherError) :
    fetch_category_total q1
        = (0, [RETRY_BACKOFF_DS * 2 ^ 0, RETRY_BACKOFF_DS * 2 ^ 1])
      ∧ fetch_category_total q2 = (t, [])
      ∧ fetch_category_total q3 = (0, [])
      ∧ (0 ≤ t → 0 ≤ (fetch_category_total q2).1) := by
  have e2 : fetch_category_total q2 = (t, []) := by
    simp [fetch_category_total, fetchTotalGo, MAX_RETRIES, h2]
  refine ⟨?_, e2, ?_, fun ht => by rw [e2]; exact ht⟩
  · have e0 := h1 0 (by simp [MAX_RETRIES])
    have e1 := h1 1 (by simp [MAX_RETRIES])
    have eb := h1 2 (by simp [MAX_RETRIES])
    simp [fetch_category_total, fetchTotalGo, MAX_RETRIES, e0, e1, eb,
      RETRY_BACKOFF_DS]
  · simp [fetch_category_total, fetchTotalGo, MAX_RETRIES, h3]

theorem c10_amended_witness :
    fetch_category_total (fun _ => TotalResponse.connError)
        = (0, [RETRY_BACKOFF_DS * 2 ^ 0, RETRY_BACKOFF_DS * 2 ^ 1])
      ∧ fetch_category_total (fun _ => TotalResponse.ok 7) = (7, [])
      ∧ fetch_category_total (fun _ => TotalResponse.otherError) = (0, [])
      ∧ (0 ≤ (7 : Int) → 0 ≤ (fetch_category_total (fun _ => TotalResponse.ok 7)).1) :=
  c10_amended_resolver (fun _ => TotalResponse.connError)
    (fun _ => TotalResponse.ok 7) (fun _ => TotalResponse.otherError) 7
    (fun _ _ => rfl) rfl rfl

/-- Characterization of an attempt loop ending with `success = True`:
either the final request returned no items (state untouched), or it
returned items, reset `consecutive_failures`, and left the offset where
it was (when `offset + LIMIT >= total`) or advanced it by `LIMIT`. -/
theorem attemptLoop_success_inv {α : Type} (total : Nat) (q : Nat → PageResponse α) :
    ∀ (b : Nat) (st st1 : FetchState α) (items : List α),
      attemptLoop total q b st = .success items st1 →
        (items = [] ∧ st1.offset = st.offset
            ∧ st1.consecutiveFailures = st.consecutiveFailures)
        ∨ (items ≠ [] ∧ st1.consecutiveFailures = 0
            ∧ ((total ≤ st.offset + LIMIT ∧ st1.offset = st.offset)
                ∨ (st.offset + LIMIT < total ∧ st1.offset = st.offset + LIMIT))) := by
  intro b
  induction b with
  | zero =>
      intro st st1 items h
      simp only [attemptLoop] at h
      exact absurd h (by simp)
  | succ b ih =>
      intro st st1 items h
      simp only [attemptLoop] at h
      cases hq : q st.requests <;> simp only [hq] at h
      case rateLimited =>
          simpa using ih _ _ _ h
      case connError =>
          by_cases hb : b = 0
          · rw [if_pos hb] at h
            exact absurd h (by simp)
          · rw [if_neg hb] at h
            simpa using ih _ _ _ h
      case reqError =>
          exact absurd h (by simp)
      case ok items0 =>
          by_cases he : items0.isEmpty
          · rw [if_pos he] at h
            cases h
            exact Or.inl ⟨List.isEmpty_iff.mp he, rfl, rfl⟩
          · rw [if_neg he] at h
            by_cases ht : total ≤ st.offset + LIMIT
            · rw [if_pos ht] at h
              cases h
              exact Or.inr ⟨fun hn => he (by simp [hn]), rfl, Or.inl ⟨ht, rfl⟩⟩
            · rw [if_neg ht] at h
              cases h
              exact Or.inr
                ⟨fun hn => he (by simp [hn]), rfl, Or.inr ⟨Nat.lt_of_not_le ht, rfl⟩⟩

/-- Once `offset + LIMIT >= total`, the loop ends within
`MAX_CONSECUTIVE_FAILURES - consecutive_failures` further iterations:
every success returns, and every failure feeds the counter, which is
never reset in this region. -/
theorem fetchLoop_end_isSome {α : Type} (total : Nat) (q : Nat → PageResponse α) :
    ∀ (fuel : Nat) (st : FetchState α),
      total ≤ st.offset + LIMIT →
      st.consecutiveFailures < MAX_CONSECUTIVE_FAILURES →
      MAX_CONSECUTIVE_FAILURES - st.consecutiveFailures ≤ fuel →
      (fetchLoop total q fuel st).isSome = true := by
  intro fuel
  induction fuel with
  | zero =>
      intro st hoff hcf hfuel
      omega
  | succ fuel ih =>
      intro st hoff hcf hfuel
      cases hA : attemptLoop total q MAX_RETRIES st with
      | failed st1 =>
          obtain ⟨ho, hc, _⟩ := attemptLoop_failed_inv total q MAX_RETRIES st st1 hA
          simp only [fetchLoop, hA]
          by_cases hth : MAX_CONSECUTIVE_FAILURES ≤ st1.consecutiveFailures + 1
          · rw [if_pos hth]
            simp
          · rw [if_neg hth]
            refine ih _ ?_ ?_ ?_
            · show total ≤ st1.offset + LIMIT + LIMIT
              omega
            · show st1.consecutiveFailures + 1 < MAX_CONSECUTIVE_FAILURES
              omega
            · show MAX_CONSECUTIVE_FAILURES - (st1.consecutiveFailures + 1) ≤ fuel
              omega
      | success items st1 =>
          rcases attemptLoop_success_inv total q MAX_RETRIES st st1 items hA with
            ⟨hnil, _, _⟩ | ⟨hne, _, hor⟩
          · simp [fetchLoop, hA, hnil]
          · have hoeq : st1.offset = st.offset := by
              rcases hor with ⟨_, h⟩ | ⟨hlt, _⟩
              · exact h
              · omega
            simp only [fetchLoop, hA]
            rw [if_neg (by simp [List.isEmpty_iff, hne])]
            rw [if_pos (by omega : total ≤ st1.offset + LIMIT)]
            simp

/-- While `offset + n * LIMIT` still covers `total`, the loop ends
within `n + MAX_CONSECUTIVE_FAILURES` iterations: every continuing
iteration advances the offset by exactly `LIMIT`. -/
theorem fetchLoop_main_isSome {α : Type} (total : Nat) (q : Nat → PageResponse α) :
    ∀ (n fuel : Nat) (st : FetchState α),
      total ≤ st.offset + n * LIMIT →
      st.consecutiveFailures < MAX_CONSECUTIVE_FAILURES →
      n + MAX_CONSECUTIVE_FAILURES ≤ fuel →
      (fetchLoop total q fuel st).isSome = true := by
  intro n
  induction n with
  | zero =>
      intro fuel st hb hcf hfuel
      rw [Nat.zero_mul] at hb
      refine fetchLoop_end_isSome total q fuel st (by omega) hcf (by omega)
  | succ n ih =>
      intro fuel st hb hcf hfuel
      by_cases hend : total ≤ st.offset + LIMIT
      · exact fetchLoop_end_isSome total q fuel st hend hcf (by omega)
      · cases fuel with
        | zero => omega
        | succ fuel2 =>
            have hmul : (n + 1) * LIMIT = n * LIMIT + LIMIT := Nat.succ_mul n LIMIT
            cases hA : attemptLoop total q MAX_RETRIES st with
            | failed st1 =>
                obtain ⟨ho, hc, _⟩ := attemptLoop_failed_inv total q MAX_RETRIES st st1 hA
                simp only [fetchLoop, hA]
                by_cases hth : MAX_CONSECUTIVE_FAILURES ≤ st1.consecutiveFailures + 1
                · rw [if_pos hth]
                  simp
                · rw [if_neg hth]
                  refine ih fuel2 _ ?_ ?_ ?_
                  · show total ≤ st1.offset + LIMIT + n * LIMIT
                    omega
                  · show st1.consecutiveFailures + 1 < MAX_CONSECUTIVE_FAILURES
                    omega
                  · show n + MAX_CONSECUTIVE_FAILURES ≤ fuel2
                    omega
            | success items st1 =>
                rcases attemptLoop_success_inv total q MAX_RETRIES st st1 items hA with
                  ⟨hnil, _, _⟩ | ⟨hne, hc0, hor⟩
                · simp [fetchLoop, hA, hnil]
                · have hoeq : st1.offset = st.offset + LIMIT := by
                    rcases hor with ⟨hle, _⟩ | ⟨_, h⟩
                    · omega
                    · exact h
                  simp only [fetchLoop, hA]
                  rw [if_neg (by simp [List.isEmpty_iff, hne])]
                  by_cases h2 : total ≤ st1.offset + LIMIT
                  · rw [if_pos h2]
                    simp
                  · rw [if_neg h2]
                    refine ih fuel2 st1 (by omega) ?_ (by omega)
                    rw [hc0]
                    have hM : MAX_CONSECUTIVE_FAILURES = 3 := rfl
                    omega

/-- C8: for every finite expected total and every sequence of page
responses (rate limits, transient errors, payloads), the fetch loop of
`fetch_single_category` terminates within
`ceil(total / LIMIT) + MAX_CONSECUTIVE_FAILURES` outer iterations: run
with at least that much fuel it always returns a result. -/
theorem c8_bounded_termination {α : Type} (total fuel : Nat)
    (q : Nat → PageResponse α)
    (h : (total + LIMIT - 1) / LIMIT + MAX_CONSECUTIVE_FAILURES ≤ fuel) :
    (fetch_single_category total q fuel).isSome = true := by
  refine fetchLoop_main_isSome total q ((total + LIMIT - 1) / LIMIT) fuel fetchInit ?_ ?_ h
  · show total ≤ 0 + (total + LIMIT - 1) / LIMIT * LIMIT
    have hL : LIMIT = 100 := rfl
    rw [hL]
    omega
  · show (0 : Nat) < MAX_CONSECUTIVE_FAILURES
    decide

theorem c8_witness :
    (0 + LIMIT - 1) / LIMIT + MAX_CONSECUTIVE_FAILURES ≤ 3
      ∧ (fetch_single_category 0
          (fun _ => PageResponse.ok [] : Nat → PageResponse Nat) 3).isSome = true :=
  ⟨by decide, c8_bounded_termination 0 3 _ (by decide)⟩
